import Mathlib

/-!
Verification of the time/duration value-type library of the repository
(`src/log_types/src/time.rs`): the `Time` and `Dur` (Rust `Duration`)
wrappers over a signed 64-bit nanosecond count, their saturating
arithmetic, negation, interpolation, and text formatting.

Machine integers (`i64`) are embedded as `Int` together with explicit
bounds `i64min`/`i64max`; Rust release-mode overflow of the unchecked
`+`/`-`/`*` operators is modelled by two's-complement wrapping
(`wrapI64`); `saturating_add`/`saturating_sub` are modelled by clamping
(`satI64`).  Rust's `/` and `%` on `i64` truncate toward zero, so they
are embedded as `Int.tdiv`/`Int.tmod`.  Strings are built as `List Char`
and wrapped into `String` at the top level.
-/

/-- Rust `i64::MIN = -2^63`. -/
def i64min : Int := -9223372036854775808

/-- Rust `i64::MAX = 2^63 - 1`. -/
def i64max : Int := 9223372036854775807

/-- Clamp an integer into the `i64` range: the result of Rust's
saturating arithmetic applied to the exact mathematical value. -/
def satI64 (x : Int) : Int :=
  if x < i64min then i64min else if i64max < x then i64max else x

/-- Wrap an integer into the `i64` range (two's complement): the result
of Rust's unchecked (release-mode) arithmetic applied to the exact
value, and of an `as i64` cast from a wider integer. -/
def wrapI64 (x : Int) : Int :=
  (x + 9223372036854775808) % 18446744073709551616 - 9223372036854775808

/-- Decimal digits of a natural number, most significant first, by
structural recursion on a fuel argument so that the kernel can reduce
it; models Rust's decimal `Display` of an unsigned value.  Any
`fuel > n` (in particular the `n + 1` used by `natDigits`) is enough,
since the value shrinks by a factor of ten per step. -/
def natDigitsGo : Nat → Nat → List Char
  | 0, _ => []
  | fuel + 1, n =>
      if n < 10 then [Nat.digitChar n]
      else natDigitsGo fuel (n / 10) ++ [Nat.digitChar (n % 10)]

/-- Decimal digit string of a natural number (e.g. `0 ↦ "0"`). -/
def natDigits (n : Nat) : List Char := natDigitsGo (n + 1) n

/-- Decimal rendering of a signed integer, as Rust's `Display` for
`i64`: a leading minus sign for negative values, then the digits of the
absolute value. -/
def intChars (v : Int) : List Char :=
  if v < 0 then '-' :: natDigits v.natAbs else natDigits v.natAbs

/-- Left-pad a digit string with zeros to width `w`: Rust's `{:0w}`
format specifier (which leaves strings of length at least `w`
unchanged). -/
def padZeros (w : Nat) (cs : List Char) : List Char :=
  List.replicate (w - cs.length) '0' ++ cs

/-- Rust `struct Duration(i64)` (src/log_types/src/time.rs line 110): a
signed duration as a nanosecond count.  Named `Dur` to avoid clashing
with Mathlib; the field `nanos` is the Rust tuple field `.0`. -/
structure Dur where
  nanos : Int
deriving DecidableEq

/-- Rust `Duration::MAX = Duration(i64::MAX)` (line 113). -/
def Dur.MAX : Dur := ⟨i64max⟩

/-- Rust `Duration::from_nanos` (lines 115-118). -/
def Dur.from_nanos (nanos : Int) : Dur := ⟨nanos⟩

/-- Rust `Duration::as_nanos` (lines 125-128). -/
def Dur.as_nanos (d : Dur) : Int := d.nanos

/-- Rust `impl std::ops::Neg for Duration` (lines 210-222): negation
with the `i64::MIN ↦ i64::MAX` sentinel substitution, avoiding
overflow. -/
def Dur.neg (d : Dur) : Dur :=
  if d.nanos = i64min then ⟨i64max⟩ else ⟨-d.nanos⟩

/-- Rust `struct Time(i64)` (line 6): nanoseconds since the unix epoch.
The field doubles as the accessor `Time::nanos_since_epoch` (lines
14-17). -/
structure Time where
  nanos_since_epoch : Int
deriving DecidableEq

/-- Rust `Time::from_ns_since_epoch` (lines 19-22). -/
def Time.from_ns_since_epoch (ns_since_epoch : Int) : Time := ⟨ns_since_epoch⟩

/-- Rust `Time::from_us_since_epoch` (lines 24-27):
`Self(us_since_epoch * 1_000)`.  The multiplication is Rust's unchecked
`i64` `*`, which wraps (two's complement) on overflow in release
builds, so it is modelled with `wrapI64`. -/
def Time.from_us_since_epoch (us_since_epoch : Int) : Time :=
  ⟨wrapI64 (us_since_epoch * 1000)⟩

/-- Rust `impl std::ops::Sub for Time` (lines 71-78):
`Duration(self.0.saturating_sub(rhs.0))`. -/
def Time.sub (t rhs : Time) : Dur :=
  ⟨satI64 (t.nanos_since_epoch - rhs.nanos_since_epoch)⟩

/-- Rust `impl std::ops::Add<Duration> for Time` (lines 80-87):
`Time(self.0.saturating_add(duration.0))`. -/
def Time.add (t : Time) (duration : Dur) : Time :=
  ⟨satI64 (t.nanos_since_epoch + duration.nanos)⟩

/-- Rust `impl std::ops::AddAssign<Duration> for Time` (lines 89-94):
`self.0 = self.0.saturating_add(duration.0)`, written as a state
transformer returning the updated receiver. -/
def Time.add_assign (t : Time) (duration : Dur) : Time :=
  ⟨satI64 (t.nanos_since_epoch + duration.nanos)⟩

/-- Rust `impl TryFrom<std::time::SystemTime> for Time` (lines 96-103).
A platform clock reading is embedded as its signed nanosecond offset
from the unix epoch.  `SystemTime::duration_since(UNIX_EPOCH)` yields
`Err(SystemTimeError)` exactly when the reading precedes the epoch (the
error carries the positive shortfall), and otherwise the nonnegative
`std::time::Duration` whose `as_nanos()` (a `u128`) the code casts with
`as i64`, i.e. truncates to the low 64 bits reinterpreted as signed
(`wrapI64`). -/
def Time.try_from (reading : Int) : Except Int Time :=
  if reading < 0 then Except.error (-reading) else Except.ok ⟨wrapI64 reading⟩

/-- Floor of the base-2 logarithm, by structural recursion on a fuel
argument so that it reduces inside the kernel; `fuel = 64` suffices for
every input below `2^64`. -/
def log2fuel : Nat → Nat → Nat
  | 0, _ => 0
  | fuel + 1, n => if n < 2 then 0 else log2fuel fuel (n / 2) + 1

/-- Round an integer to the nearest multiple of `m` (`m > 0`), ties to
the even multiple: the rounding IEEE-754 binary64 applies to
significands. -/
def roundHalfEvenMul (n m : Int) : Int :=
  (if 2 * (n - n.fdiv m * m) < m then n.fdiv m
   else if m < 2 * (n - n.fdiv m * m) then n.fdiv m + 1
   else if n.fdiv m % 2 = 0 then n.fdiv m else n.fdiv m + 1) * m

/-- The binary64 (`f64`) value nearest to the integer `n`, as an integer
(exact for every `|n| < 2^64`, which is wider than any `i64`): Rust's
`as f64` cast of an integer rounds to nearest, ties to even.  Integers
of magnitude at most `2^53` are exactly representable; larger ones round
to a multiple of `2^(bits - 53)` where `bits = log2 |n| + 1`. -/
def toF64 (n : Int) : Int :=
  if n.natAbs ≤ 9007199254740992 then n
  else roundHalfEvenMul n (2 ^ (log2fuel 64 n.natAbs - 52))

/-- Rust `Time::lerp` (lines 58-62), modelled at the parameter values
the claim quantifies over: `t = 0.0` (`tIsOne = false`) and `t = 1.0`
(`tIsOne = true`), with the inclusive range as a pair.  In the source,
`max - min` is unchecked `i64` subtraction (wraps on overflow in
release builds, hence `wrapI64`); its `as f64` cast is `toF64`;
multiplying that float by `0.0` gives `0` and by `1.0` is exact;
`f64::round` is the identity on these integral values; the `as i64`
cast saturates (`satI64`); and the outer `min + …` is unchecked `i64`
addition (`wrapI64`). -/
def Time.lerp (range : Time × Time) (tIsOne : Bool) : Time :=
  ⟨wrapI64 (range.1.nanos_since_epoch +
      satI64 (if tIsOne then
                toF64 (wrapI64 (range.2.nanos_since_epoch - range.1.nanos_since_epoch))
              else 0))⟩

/-- Rust constant `MAX_MILLISECOND_ACCURACY` inside
`Duration::exact_format` (line 187). -/
def MAX_MILLISECOND_ACCURACY : Bool := true

/-- Rust constant `MAX_MICROSECOND_ACCURACY` inside
`Duration::exact_format` (line 188). -/
def MAX_MICROSECOND_ACCURACY : Bool := true

/-- The `total_nanos` of `Duration::exact_format` (lines 146-152): the
receiver's nanos, negated through the overflow-safe `Neg` when
negative. -/
def exactTotalNanos (n : Int) : Int :=
  if n < 0 then (Dur.neg ⟨n⟩).nanos else n

/-- The `whole_seconds` of `Duration::exact_format` (line 154). -/
def exactWholeSeconds (n : Int) : Int :=
  (exactTotalNanos n).tdiv 1000000000

/-- The `nanos` (sub-second remainder) of `Duration::exact_format`
(line 155): `total_nanos - NANOS_PER_SEC * whole_seconds`. -/
def exactNanosRem (n : Int) : Int :=
  exactTotalNanos n - 1000000000 * exactWholeSeconds n

/-- The `days` of `Duration::exact_format` (line 160). -/
def exactDays (n : Int) : Int := (exactWholeSeconds n).tdiv 86400

/-- The `seconds_remaining` after the days branch (lines 161-165). -/
def exactRem1 (n : Int) : Int :=
  if 0 < exactDays n then exactWholeSeconds n - exactDays n * 86400
  else exactWholeSeconds n

/-- The output accumulated by the days branch (lines 161-165). -/
def exactCs1 (n : Int) : List Char :=
  if 0 < exactDays n then intChars (exactDays n) ++ ['d'] else []

/-- The `did_write` flag after the days branch (lines 161-165). -/
def exactDw1 (n : Int) : Bool := decide (0 < exactDays n)

/-- The `hours` of `Duration::exact_format` (line 167). -/
def exactHours (n : Int) : Int := (exactRem1 n).tdiv 3600

/-- The `seconds_remaining` after the hours branch (lines 168-175). -/
def exactRem2 (n : Int) : Int :=
  if 0 < exactHours n then exactRem1 n - exactHours n * 3600 else exactRem1 n

/-- The output accumulated through the hours branch (lines 168-175). -/
def exactCs2 (n : Int) : List Char :=
  if 0 < exactHours n then
    exactCs1 n ++ (if exactDw1 n = true then [' '] else [])
      ++ (intChars (exactHours n) ++ ['h'])
  else exactCs1 n

/-- The `did_write` flag after the hours branch (lines 168-175). -/
def exactDw2 (n : Int) : Bool := exactDw1 n || decide (0 < exactHours n)

/-- The `minutes` of `Duration::exact_format` (line 177). -/
def exactMinutes (n : Int) : Int := (exactRem2 n).tdiv 60

/-- The `seconds_remaining` after the minutes branch (lines 178-185). -/
def exactRem3 (n : Int) : Int :=
  if 0 < exactMinutes n then exactRem2 n - exactMinutes n * 60 else exactRem2 n

/-- The output accumulated through the minutes branch (lines 178-185). -/
def exactCs3 (n : Int) : List Char :=
  if 0 < exactMinutes n then
    exactCs2 n ++ (if exactDw2 n = true then [' '] else [])
      ++ (intChars (exactMinutes n) ++ ['m'])
  else exactCs2 n

/-- The `did_write` flag after the minutes branch (lines 178-185). -/
def exactDw3 (n : Int) : Bool := exactDw2 n || decide (0 < exactMinutes n)

/-- Everything `Duration::exact_format` writes before the seconds
component: the sign (lines 146-152) followed by the day/hour/minute
tokens. -/
def exactHeadChars (n : Int) : List Char :=
  (if n < 0 then ['-'] else []) ++ exactCs3 n

/-- The seconds component of `Duration::exact_format` (lines 195-203):
whole seconds when the sub-second remainder is zero, otherwise a
fractional part whose precision is picked by the first matching branch
(milliseconds, microseconds, nanoseconds). -/
def secondsTokenChars (seconds_remaining nanos : Int) : List Char :=
  if nanos = 0 then intChars seconds_remaining ++ ['s']
  else if MAX_MILLISECOND_ACCURACY = true ∨ Int.tmod nanos 1000000 = 0 then
    intChars seconds_remaining ++ '.' ::
      (padZeros 3 (intChars (Int.tdiv nanos 1000000)) ++ ['s'])
  else if MAX_MICROSECOND_ACCURACY = true ∨ Int.tmod nanos 1000 = 0 then
    intChars seconds_remaining ++ '.' ::
      (padZeros 6 (intChars (Int.tdiv nanos 1000)) ++ ['s'])
  else
    intChars seconds_remaining ++ '.' :: (padZeros 9 (intChars nanos) ++ ['s'])

/-- The full output of `Duration::exact_format` (lines 140-207): the
head, then — when the remaining seconds or the sub-second remainder is
nonzero or nothing was written yet — a separating space (if needed) and
the seconds component. -/
def exactFormatChars (n : Int) : List Char :=
  if 0 < exactRem3 n ∨ 0 < exactNanosRem n ∨ exactDw3 n = false then
    exactHeadChars n ++ (if exactDw3 n = true then [' '] else [])
      ++ secondsTokenChars (exactRem3 n) (exactNanosRem n)
  else exactHeadChars n

/-- Rust `Duration::exact_format` / `Display` (lines 140-207, 224-228)
as a `String` producer. -/
def Dur.exact_format (d : Dur) : String := String.mk (exactFormatChars d.nanos)

/-- Which branch of the seconds component of `Duration::exact_format`
(lines 190-204) runs: none at all, whole seconds, or the millisecond /
microsecond / nanosecond precision branches. -/
inductive SecondsBranch
  | skipped
  | whole
  | milli
  | micro
  | nano
deriving DecidableEq

/-- The seconds-component branch `Duration::exact_format` selects for a
given nanosecond count, mirroring the conditions of lines 190-203. -/
def secondsBranchOf (n : Int) : SecondsBranch :=
  if 0 < exactRem3 n ∨ 0 < exactNanosRem n ∨ exactDw3 n = false then
    if exactNanosRem n = 0 then SecondsBranch.whole
    else if MAX_MILLISECOND_ACCURACY = true ∨ Int.tmod (exactNanosRem n) 1000000 = 0 then
      SecondsBranch.milli
    else if MAX_MICROSECOND_ACCURACY = true ∨ Int.tmod (exactNanosRem n) 1000 = 0 then
      SecondsBranch.micro
    else SecondsBranch.nano
  else SecondsBranch.skipped

/-- The `years_since_epoch` of `Time::format` (line 37): the integer
division chain `nanos / 1_000_000_000 / 60 / 60 / 24 / 365` with Rust's
truncating `i64` division. -/
def yearsSinceEpoch (n : Int) : Int :=
  ((((Int.tdiv n 1000000000).tdiv 60).tdiv 60).tdiv 24).tdiv 365

/-- Round the exact quotient `a / b` (`b > 0`) to the nearest natural
number, ties to even: the rounding applied at the final displayed
decimal digit. -/
def roundHalfEvenDiv (a b : Nat) : Nat :=
  if 2 * (a % b) < b then a / b
  else if b < 2 * (a % b) then a / b + 1
  else if (a / b) % 2 = 0 then a / b else a / b + 1

/-- The relative branch of `Time::format` (lines 52-54):
`format!("{:+.03}s", nanos as f64 * 1e-9)`, a sign, the whole seconds,
and exactly three decimal places.  The double-precision arithmetic is
idealized to exact rational arithmetic: the value printed to three
decimals is `|nanos| / 10^6` milliseconds, rounded half to even. -/
def relativeChars (n : Int) : List Char :=
  (if n < 0 then '-' else '+') ::
    (natDigits (roundHalfEvenDiv n.natAbs 1000000 / 1000) ++ '.' ::
      (padZeros 3 (natDigits (roundHalfEvenDiv n.natAbs 1000000 % 1000)) ++ ['s']))

/-- The two output modes of `Time::format` (lines 35-56).  The absolute
branch hands `nanos / 1e9` seconds and the `nanos % 1e9` sub-second
remainder to the external `chrono` crate, whose rendering also depends
on the real current date (the time-of-day-only form), so it is captured
here by its arguments rather than by a rendered string; the relative
branch carries its fully rendered characters. -/
inductive TimeFormat
  | absolute (secs : Int) (subsecNanos : Int)
  | relative (chars : List Char)
deriving DecidableEq

/-- Rust `Time::format` (lines 35-56): the year-range heuristic choosing
between absolute date-time rendering and relative-seconds rendering. -/
def Time.format (t : Time) : TimeFormat :=
  if 50 ≤ yearsSinceEpoch t.nanos_since_epoch
      ∧ yearsSinceEpoch t.nanos_since_epoch ≤ 150 then
    TimeFormat.absolute (Int.tdiv t.nanos_since_epoch 1000000000)
      (Int.tmod t.nanos_since_epoch 1000000000)
  else TimeFormat.relative (relativeChars t.nanos_since_epoch)

/-- Character-level statement of the regular expression
`^[+-]\d+\.\d{3}s$`: a sign, at least one digit, a point, exactly three
digits, and a trailing `s`. -/
def matchesSignedSecs (cs : List Char) : Prop :=
  ∃ sgn ds fs, (sgn = '+' ∨ sgn = '-') ∧ ds ≠ [] ∧ (∀ c ∈ ds, c.isDigit = true)
    ∧ fs.length = 3 ∧ (∀ c ∈ fs, c.isDigit = true)
    ∧ cs = sgn :: (ds ++ '.' :: (fs ++ ['s']))

/-- C1: `Timestamp::from_nanos(a) - Timestamp::from_nanos(b)` is the
Duration holding the signed difference `a - b` clamped to the `i64`
bounds, and in particular it never leaves the representable range. -/
theorem c1_sub_is_saturated_difference (a b : Int)
    (ha1 : i64min ≤ a) (ha2 : a ≤ i64max) (hb1 : i64min ≤ b) (hb2 : b ≤ i64max) :
    (Time.sub (Time.from_ns_since_epoch a) (Time.from_ns_since_epoch b)).nanos
      = max i64min (min i64max (a - b))
    ∧ i64min ≤ (Time.sub (Time.from_ns_since_epoch a) (Time.from_ns_since_epoch b)).nanos
    ∧ (Time.sub (Time.from_ns_since_epoch a) (Time.from_ns_since_epoch b)).nanos ≤ i64max := by
  simp only [Time.sub, Time.from_ns_since_epoch, satI64, i64min, i64max] at *
  repeat' split
  all_goals omega

/-- Witness for C1 at `a = 3`, `b = 5`. -/
theorem c1_sub_is_saturated_difference_witness :
    (Time.sub (Time.from_ns_since_epoch 3) (Time.from_ns_since_epoch 5)).nanos
      = max i64min (min i64max (3 - 5))
    ∧ i64min ≤ (Time.sub (Time.from_ns_since_epoch 3) (Time.from_ns_since_epoch 5)).nanos
    ∧ (Time.sub (Time.from_ns_since_epoch 3) (Time.from_ns_since_epoch 5)).nanos ≤ i64max :=
  c1_sub_is_saturated_difference 3 5 (by decide) (by decide) (by decide) (by decide)

/-- C2: the round trip `t.add(d).subtract(d)` (subtracting the Timestamp
holding `d`'s nanosecond count) returns exactly `t` — hence within one
nanosecond of `t` — whenever the addition does not saturate; when it
does saturate, the saturated sum is clamped to the representable bound
(`i64max` above, `i64min` below) rather than wrapped. -/
theorem c2_add_sub_round_trip (t d : Int)
    (ht1 : i64min ≤ t) (ht2 : t ≤ i64max) (hd1 : i64min ≤ d) (hd2 : d ≤ i64max) :
    ((i64min ≤ t + d → t + d ≤ i64max →
        (Time.sub (Time.add ⟨t⟩ ⟨d⟩) (Time.from_ns_since_epoch d)).nanos = t)
    ∧ (i64max < t + d → (Time.add ⟨t⟩ ⟨d⟩).nanos_since_epoch = i64max)
    ∧ (t + d < i64min → (Time.add ⟨t⟩ ⟨d⟩).nanos_since_epoch = i64min)) := by
  simp only [Time.sub, Time.add, Time.from_ns_since_epoch, satI64, i64min, i64max] at *
  refine ⟨?_, ?_, ?_⟩ <;> intros <;> (repeat' split) <;> omega

/-- Witness for C2 at `t = 10`, `d = 5` (non-saturating case). -/
theorem c2_add_sub_round_trip_witness :
    ((i64min ≤ (10 : Int) + 5 → (10 : Int) + 5 ≤ i64max →
        (Time.sub (Time.add ⟨10⟩ ⟨5⟩) (Time.from_ns_since_epoch 5)).nanos = 10)
    ∧ (i64max < (10 : Int) + 5 → (Time.add ⟨10⟩ ⟨5⟩).nanos_since_epoch = i64max)
    ∧ ((10 : Int) + 5 < i64min → (Time.add ⟨10⟩ ⟨5⟩).nanos_since_epoch = i64min)) :=
  c2_add_sub_round_trip 10 5 (by decide) (by decide) (by decide) (by decide)

/-- C3: negating a Duration yields the exact arithmetic negation for
every representable value except `i64::MIN`, whose negation is the
maximal sentinel `Duration::MAX` (nanos = `i64::MAX`); in both cases the
result stays in the `i64` range (no wrap). -/
theorem c3_neg_exact_except_sentinel (n : Int)
    (h1 : i64min ≤ n) (h2 : n ≤ i64max) :
    ((n = i64min → Dur.neg ⟨n⟩ = Dur.MAX ∧ (Dur.neg ⟨n⟩).nanos = i64max)
    ∧ (n ≠ i64min → (Dur.neg ⟨n⟩).nanos = -n)
    ∧ i64min ≤ (Dur.neg ⟨n⟩).nanos ∧ (Dur.neg ⟨n⟩).nanos ≤ i64max) := by
  simp only [Dur.neg, Dur.MAX, i64min, i64max] at *
  constructor
  · intro h; simp [h]
  constructor
  · intro h; simp [h]
  · split <;> simp_all <;> omega

/-- Witness for C3 at `n = i64::MIN`: the negation is the sentinel. -/
theorem c3_neg_exact_except_sentinel_witness :
    (((-9223372036854775808 : Int) = i64min →
        Dur.neg ⟨-9223372036854775808⟩ = Dur.MAX
        ∧ (Dur.neg ⟨-9223372036854775808⟩).nanos = i64max)
    ∧ ((-9223372036854775808 : Int) ≠ i64min →
        (Dur.neg ⟨-9223372036854775808⟩).nanos = -(-9223372036854775808))
    ∧ i64min ≤ (Dur.neg ⟨-9223372036854775808⟩).nanos
    ∧ (Dur.neg ⟨-9223372036854775808⟩).nanos ≤ i64max) :=
  c3_neg_exact_except_sentinel (-9223372036854775808) (by decide) (by decide)

/-- C8 (amended): `Time::from_us_since_epoch(u)` equals `u * 1000`
nanoseconds whenever that product fits in `i64`; on that domain the
constructor is exact and does not wrap. -/
theorem c8_from_micros_exact_when_in_range (u : Int)
    (h1 : i64min ≤ u * 1000) (h2 : u * 1000 ≤ i64max) :
    (Time.from_us_since_epoch u).nanos_since_epoch = u * 1000 := by
  simp only [Time.from_us_since_epoch, wrapI64, i64min, i64max] at *
  omega

/-- Witness for the amended C8 at `u = 7`. -/
theorem c8_from_micros_exact_when_in_range_witness :
    (Time.from_us_since_epoch 7).nanos_since_epoch = 7 * 1000 :=
  c8_from_micros_exact_when_in_range 7 (by decide) (by decide)

/-- Counterexample to C8 as stated: at `u = i64::MAX` the unchecked
multiplication `u * 1_000` overflows `i64` and wraps to `-1000`, so the
resulting timestamp's nanosecond count is not `u * 1000`. -/
theorem c8_from_micros_overflow_counterexample :
    (Time.from_us_since_epoch 9223372036854775807).nanos_since_epoch = -1000
    ∧ (Time.from_us_since_epoch 9223372036854775807).nanos_since_epoch
        ≠ 9223372036854775807 * 1000 := by
  constructor
  · simp only [Time.from_us_since_epoch, wrapI64]; decide
  · simp only [Time.from_us_since_epoch, wrapI64]; decide

/-- C10: the in-place saturating add `t += d` produces exactly the same
state as the pure addition `t + d`: the two variants agree on every
input. -/
theorem c10_add_assign_equals_add (t : Time) (d : Dur) :
    Time.add_assign t d = Time.add t d := rfl

/-- C9 (amended): converting a platform clock reading fails exactly when
the reading precedes the epoch, the error carrying the reading's
shortfall; a reading at or after the epoch succeeds, and whenever its
nanosecond count fits in `i64` (readings up to the year ~2262) the
resulting timestamp holds that exact count. -/
theorem c9_try_from_error_iff_before_epoch (r : Int) :
    ((r < 0 → Time.try_from r = Except.error (-r))
    ∧ (0 ≤ r → r ≤ i64max → Time.try_from r = Except.ok ⟨r⟩)
    ∧ ((∃ e, Time.try_from r = Except.error e) ↔ r < 0)) := by
  refine ⟨fun h => by simp [Time.try_from, h], fun h1 h2 => ?_, ?_⟩
  · have : ¬ r < 0 := by omega
    simp only [Time.try_from, if_neg this, Except.ok.injEq, Time.mk.injEq]
    simp only [wrapI64, i64max] at *
    omega
  · constructor
    · rintro ⟨e, he⟩
      by_contra h
      simp [Time.try_from, h] at he
    · intro h
      exact ⟨-r, by simp [Time.try_from, h]⟩

/-- Witness for C9 at `r = -3` (error case) and `r = 42` (success). -/
theorem c9_try_from_error_iff_before_epoch_witness :
    Time.try_from (-3) = Except.error 3 ∧ Time.try_from 42 = Except.ok ⟨42⟩ :=
  ⟨by have h := (c9_try_from_error_iff_before_epoch (-3)).1 (by decide)
      simpa using h,
   (c9_try_from_error_iff_before_epoch 42).2.1 (by decide) (by decide)⟩

/-- Counterexample to C9 as stated: a reading `2^63` nanoseconds after
the epoch does not precede it, so the conversion succeeds, but the
`u128 → i64` cast of its nanosecond count wraps to `-2^63`: the result
does not hold the reading's nanoseconds since the epoch. -/
theorem c9_try_from_wrap_counterexample :
    Time.try_from 9223372036854775808 = Except.ok ⟨-9223372036854775808⟩
    ∧ ((-9223372036854775808 : Int) ≠ 9223372036854775808) := by
  constructor
  · simp only [Time.try_from, wrapI64]
    norm_num
  · decide

/-- C7 (amended): for a non-degenerate range whose width `max - min` is
at most `2^53` (so the width is exactly representable in `f64`),
`lerp(range, 0.0)` is the lower bound and `lerp(range, 1.0)` is the
upper bound. -/
theorem c7_lerp_endpoints (tmin tmax : Int)
    (h1 : i64min ≤ tmin) (h2 : tmin ≤ i64max)
    (h3 : i64min ≤ tmax) (h4 : tmax ≤ i64max) :
    Time.lerp (⟨tmin⟩, ⟨tmax⟩) false = ⟨tmin⟩
    ∧ (tmin < tmax → tmax - tmin ≤ 9007199254740992 →
        Time.lerp (⟨tmin⟩, ⟨tmax⟩) true = ⟨tmax⟩) := by
  constructor
  · simp only [Time.lerp, if_neg (by simp : ¬ false = true)]
    simp only [satI64, wrapI64, i64min, i64max] at *
    repeat' split
    all_goals simp_all; try omega
  · intro hlt hwidth
    have hw : wrapI64 (tmax - tmin) = tmax - tmin := by
      simp only [wrapI64, i64min, i64max] at *; omega
    simp only [Time.lerp, if_pos rfl, hw]
    have htf : toF64 (tmax - tmin) = tmax - tmin := by
      simp only [toF64, if_pos (by omega : (tmax - tmin).natAbs ≤ 9007199254740992)]
    rw [htf]
    simp only [satI64, wrapI64, i64min, i64max] at *
    repeat' split
    all_goals simp_all; try omega

/-- Witness for the amended C7 on the range `[0, 2^53]`. -/
theorem c7_lerp_endpoints_witness :
    Time.lerp (⟨0⟩, ⟨9007199254740992⟩) false = ⟨0⟩
    ∧ ((0 : Int) < 9007199254740992 → (9007199254740992 : Int) - 0 ≤ 9007199254740992 →
        Time.lerp (⟨0⟩, ⟨9007199254740992⟩) true = ⟨9007199254740992⟩) :=
  c7_lerp_endpoints 0 9007199254740992 (by decide) (by decide) (by decide) (by decide)

/-- Counterexample to C7 as stated: on the non-degenerate range
`[0, 2^53 + 1]` the width `2^53 + 1` is not representable in `f64` and
rounds (ties to even) down to `2^53`, so `lerp(range, 1.0)` returns
`2^53`, not the range's upper bound `2^53 + 1`. -/
theorem c7_lerp_upper_bound_counterexample :
    Time.lerp (⟨0⟩, ⟨9007199254740993⟩) true = ⟨9007199254740992⟩
    ∧ Time.lerp (⟨0⟩, ⟨9007199254740993⟩) true ≠ ⟨9007199254740993⟩ := by
  constructor <;> decide

/-- C4: the exact-format decomposition produces the spec's three
reference outputs. -/
theorem c4_exact_format_reference_outputs :
    Dur.exact_format (Dur.from_nanos 0) = "0s"
    ∧ Dur.exact_format (Dur.from_nanos 90061500000000) = "1d 1h 1m 1.500s"
    ∧ Dur.exact_format (Dur.from_nanos (-5000000000)) = "-5s" := by
  refine ⟨?_, ?_, ?_⟩ <;> decide

/-- Characters produced by `Nat.digitChar` on an actual digit are digit
characters. -/
theorem digitChar_isDigit : ∀ d : Nat, d < 10 → (Nat.digitChar d).isDigit = true := by
  decide

/-- Every character of `natDigitsGo` is a decimal digit. -/
theorem natDigitsGo_digits (fuel : Nat) : ∀ n : Nat, ∀ c ∈ natDigitsGo fuel n, c.isDigit = true := by
  induction fuel with
  | zero => intro n c hc; simp [natDigitsGo] at hc
  | succ fuel ih =>
    intro n c hc
    simp only [natDigitsGo] at hc
    split at hc
    · rename_i h
      simp only [List.mem_singleton] at hc
      subst hc
      exact digitChar_isDigit _ h
    · rcases List.mem_append.mp hc with h | h
      · exact ih _ _ h
      · simp only [List.mem_singleton] at h
        subst h
        exact digitChar_isDigit _ (Nat.mod_lt _ (by omega))

/-- Every character of `natDigits` is a decimal digit. -/
theorem natDigits_digits (n : Nat) : ∀ c ∈ natDigits n, c.isDigit = true :=
  natDigitsGo_digits _ _

/-- With nonzero fuel, `natDigitsGo` always emits at least one digit. -/
theorem natDigitsGo_ne_nil (fuel n : Nat) (h : 0 < fuel) : natDigitsGo fuel n ≠ [] := by
  cases fuel with
  | zero => omega
  | succ fuel =>
    simp only [natDigitsGo]
    split <;> simp

/-- The decimal rendering of a natural number is never empty. -/
theorem natDigits_ne_nil (n : Nat) : natDigits n ≠ [] :=
  natDigitsGo_ne_nil _ _ (Nat.succ_pos n)

/-- A natural number below `10^k` (with `k ≥ 1`) renders with at most
`k` digits. -/
theorem natDigitsGo_length_le (fuel : Nat) :
    ∀ n k : Nat, 1 ≤ k → n < 10 ^ k → (natDigitsGo fuel n).length ≤ k := by
  induction fuel with
  | zero => intro n k hk _; simp [natDigitsGo]
  | succ fuel ih =>
    intro n k hk h
    simp only [natDigitsGo]
    split
    · simpa using hk
    · rename_i h10
      have hk1 : k ≠ 1 := by
        intro hk1
        rw [hk1] at h
        norm_num at h
        omega
      have hpow : 10 ^ k = 10 ^ (k - 1) * 10 := by
        rw [← pow_succ]
        congr 1
        omega
      have hdiv : n / 10 < 10 ^ (k - 1) := by
        rw [Nat.div_lt_iff_lt_mul (by omega)]
        omega
      have := ih (n / 10) (k - 1) (by omega) hdiv
      simp only [List.length_append, List.length_singleton]
      omega

/-- The decimal rendering of a natural number below `10^k` (with
`k ≥ 1`) has at most `k` digits. -/
theorem natDigits_length_le (n k : Nat) (hk : 1 ≤ k) (h : n < 10 ^ k) :
    (natDigits n).length ≤ k :=
  natDigitsGo_length_le _ _ _ hk h

/-- Characters of a signed decimal rendering: a minus sign or a digit. -/
theorem mem_intChars (v : Int) : ∀ c ∈ intChars v, c = '-' ∨ c.isDigit = true := by
  intro c hc
  unfold intChars at hc
  split at hc
  · rcases List.mem_cons.mp hc with h | h
    · exact Or.inl h
    · exact Or.inr (natDigits_digits _ _ h)
  · exact Or.inr (natDigits_digits _ _ hc)

/-- A signed decimal rendering never contains a decimal point. -/
theorem dot_not_mem_intChars (v : Int) : '.' ∉ intChars v := by
  intro h
  rcases mem_intChars v _ h with h' | h'
  · exact absurd h' (by decide)
  · exact absurd h' (by decide)

/-- Padding with zeros to width `w` yields length exactly `w` when the
digit string is no longer than `w`. -/
theorem padZeros_length (w : Nat) (cs : List Char) (h : cs.length ≤ w) :
    (padZeros w cs).length = w := by
  simp only [padZeros, List.length_append, List.length_replicate]
  omega

/-- Zero-padding preserves the all-digits property. -/
theorem padZeros_digits (w : Nat) (cs : List Char) (h : ∀ c ∈ cs, c.isDigit = true) :
    ∀ c ∈ padZeros w cs, c.isDigit = true := by
  intro c hc
  rcases List.mem_append.mp hc with h' | h'
  · rw [List.eq_of_mem_replicate h']
    decide
  · exact h _ h'

/-- The absolute-value step of `exact_format` never produces a negative
count (the `i64::MIN` receiver becomes `i64::MAX`). -/
theorem exactTotalNanos_nonneg (n : Int) : 0 ≤ exactTotalNanos n := by
  unfold exactTotalNanos Dur.neg
  simp only [i64min, i64max]
  repeat' split
  all_goals try dsimp only
  all_goals omega

/-- The sub-second remainder computed by `exact_format` lies in
`[0, 10^9)`. -/
theorem exactNanosRem_bounds (n : Int) :
    0 ≤ exactNanosRem n ∧ exactNanosRem n < 1000000000 := by
  have h := exactTotalNanos_nonneg n
  obtain ⟨m, hm⟩ : ∃ m : Nat, exactTotalNanos n = ↑m :=
    ⟨(exactTotalNanos n).toNat, (Int.toNat_of_nonneg h).symm⟩
  unfold exactNanosRem exactWholeSeconds
  rw [hm]
  have ht : ((m : Int)).tdiv 1000000000 = ↑(m / 1000000000) := rfl
  rw [ht]
  omega

/-- Away from `i64::MIN`, the sub-second remainder computed by
`exact_format` is exactly `|n| mod 10^9`. -/
theorem exactNanosRem_eq (n : Int) (hne : n ≠ i64min) :
    exactNanosRem n = ((n.natAbs % 1000000000 : Nat) : Int) := by
  have htot : exactTotalNanos n = (n.natAbs : Int) := by
    unfold exactTotalNanos Dur.neg
    simp only [i64min] at *
    repeat' split
    all_goals try dsimp only
    all_goals omega
  unfold exactNanosRem exactWholeSeconds
  rw [htot]
  have ht : ((n.natAbs : Int)).tdiv 1000000000 = ↑(n.natAbs / 1000000000) := rfl
  rw [ht]
  omega

/-- A nonzero `|n| mod 10^9` makes the code's sub-second remainder
strictly positive (including at `n = i64::MIN`). -/
theorem exactNanosRem_pos (n : Int) (hr : n.natAbs % 1000000000 ≠ 0) :
    0 < exactNanosRem n := by
  by_cases hn : n = i64min
  · subst hn
    decide
  · rw [exactNanosRem_eq n hn]
    omega

/-- The displayed millisecond count is `|n| mod 10^9` integer-divided by
`10^6`, also at `n = i64::MIN` where the remainder itself is off by one
from the unrepresentable exact absolute value. -/
theorem exactMillis_eq (n : Int) :
    (exactNanosRem n).tdiv 1000000 = ((n.natAbs % 1000000000 / 1000000 : Nat) : Int) := by
  by_cases hn : n = i64min
  · subst hn
    decide
  · rw [exactNanosRem_eq n hn]
    rfl

/-- With a nonzero sub-second remainder, the seconds component takes the
millisecond branch: whole seconds, a point, and the zero-padded
three-digit millisecond count. -/
theorem secondsTokenChars_of_ne_zero (s nanos : Int) (h : nanos ≠ 0) :
    secondsTokenChars s nanos
      = intChars s ++ '.' :: (padZeros 3 (intChars (nanos.tdiv 1000000)) ++ ['s']) := by
  unfold secondsTokenChars
  rw [if_neg h, if_pos (Or.inl (show MAX_MILLISECOND_ACCURACY = true from rfl))]

/-- With a positive sub-second remainder, the full exact-format output
decomposes as a head, a point, and the three millisecond digits before
the trailing `s`. -/
theorem exactFormatChars_of_rem_pos (n : Int) (h : 0 < exactNanosRem n) :
    exactFormatChars n
      = (exactHeadChars n ++ (if exactDw3 n = true then [' '] else [])
          ++ intChars (exactRem3 n))
        ++ '.' :: (padZeros 3 (intChars ((exactNanosRem n).tdiv 1000000)) ++ ['s']) := by
  unfold exactFormatChars
  rw [if_pos (Or.inr (Or.inl h)), secondsTokenChars_of_ne_zero _ _ (by omega)]
  simp [List.append_assoc]

/-- The day token contains no decimal point. -/
theorem dot_not_mem_exactCs1 (n : Int) : '.' ∉ exactCs1 n := by
  unfold exactCs1
  split
  · intro h
    rcases List.mem_append.mp h with h' | h'
    · exact dot_not_mem_intChars _ h'
    · simp at h'
  · simp

/-- The day and hour tokens contain no decimal point. -/
theorem dot_not_mem_exactCs2 (n : Int) : '.' ∉ exactCs2 n := by
  unfold exactCs2
  split
  · intro h
    rcases List.mem_append.mp h with h' | h'
    · rcases List.mem_append.mp h' with h'' | h''
      · exact dot_not_mem_exactCs1 n h''
      · revert h''
        split <;> simp
    · rcases List.mem_append.mp h' with h'' | h''
      · exact dot_not_mem_intChars _ h''
      · simp at h''
  · exact dot_not_mem_exactCs1 n

/-- The day, hour and minute tokens contain no decimal point. -/
theorem dot_not_mem_exactCs3 (n : Int) : '.' ∉ exactCs3 n := by
  unfold exactCs3
  split
  · intro h
    rcases List.mem_append.mp h with h' | h'
    · rcases List.mem_append.mp h' with h'' | h''
      · exact dot_not_mem_exactCs2 n h''
      · revert h''
        split <;> simp
    · rcases List.mem_append.mp h' with h'' | h''
      · exact dot_not_mem_intChars _ h''
      · simp at h''
  · exact dot_not_mem_exactCs2 n

/-- Everything before the seconds component contains no decimal
point. -/
theorem dot_not_mem_exactHeadChars (n : Int) : '.' ∉ exactHeadChars n := by
  unfold exactHeadChars
  intro h
  rcases List.mem_append.mp h with h' | h'
  · revert h'
    split <;> simp
  · exact dot_not_mem_exactCs3 n h'

/-- The fine-precision branches of the seconds component are dead code:
the millisecond branch is selected first whenever the remainder is
nonzero. -/
theorem secondsBranchOf_never_fine (n : Int) :
    secondsBranchOf n ≠ SecondsBranch.micro ∧ secondsBranchOf n ≠ SecondsBranch.nano := by
  unfold secondsBranchOf
  split
  · split
    · simp
    · rw [if_pos (Or.inl (show MAX_MILLISECOND_ACCURACY = true from rfl))]
      simp
  · simp

/-- A positive sub-second remainder selects the millisecond branch. -/
theorem secondsBranchOf_milli (n : Int) (h : 0 < exactNanosRem n) :
    secondsBranchOf n = SecondsBranch.milli := by
  unfold secondsBranchOf
  rw [if_pos (Or.inr (Or.inl h)), if_neg (by omega : ¬ exactNanosRem n = 0),
    if_pos (Or.inl (show MAX_MILLISECOND_ACCURACY = true from rfl))]

/-- C5: when the absolute value of a Duration has a nonzero sub-second
remainder, the seconds component carries exactly three decimal digits
equal to the remainder integer-divided by `10^6`, via the millisecond
branch; the microsecond and nanosecond branches are never selected; and
when the remainder is zero the output contains no decimal point at
all. -/
theorem c5_millisecond_precision_policy (n : Int)
    (h1 : i64min ≤ n) (h2 : n ≤ i64max) :
    ((n.natAbs % 1000000000 ≠ 0 →
        (∃ p, exactFormatChars n
            = p ++ '.' :: (padZeros 3 (natDigits (n.natAbs % 1000000000 / 1000000)) ++ ['s']))
        ∧ (padZeros 3 (natDigits (n.natAbs % 1000000000 / 1000000))).length = 3
        ∧ (∀ c ∈ padZeros 3 (natDigits (n.natAbs % 1000000000 / 1000000)), c.isDigit = true)
        ∧ secondsBranchOf n = SecondsBranch.milli)
    ∧ (n.natAbs % 1000000000 = 0 → '.' ∉ exactFormatChars n)
    ∧ secondsBranchOf n ≠ SecondsBranch.micro
    ∧ secondsBranchOf n ≠ SecondsBranch.nano) := by
  refine ⟨fun hr => ?_, fun hr => ?_,
    (secondsBranchOf_never_fine n).1, (secondsBranchOf_never_fine n).2⟩
  · have hpos := exactNanosRem_pos n hr
    have hint : intChars ((exactNanosRem n).tdiv 1000000)
        = natDigits (n.natAbs % 1000000000 / 1000000) := by
      rw [exactMillis_eq n]
      unfold intChars
      rw [if_neg (by omega), Int.natAbs_ofNat]
    refine ⟨⟨exactHeadChars n ++ (if exactDw3 n = true then [' '] else [])
        ++ intChars (exactRem3 n), ?_⟩, ?_, ?_, secondsBranchOf_milli n hpos⟩
    · rw [exactFormatChars_of_rem_pos n hpos, hint]
    · apply padZeros_length
      apply natDigits_length_le _ 3 (by norm_num)
      have h9 : n.natAbs % 1000000000 < 1000000000 := Nat.mod_lt _ (by norm_num)
      norm_num
      omega
    · exact padZeros_digits _ _ (natDigits_digits _)
  · have hne : n ≠ i64min := by
      intro he
      rw [he] at hr
      revert hr
      decide
    have hrem : exactNanosRem n = 0 := by
      rw [exactNanosRem_eq n hne, hr]
      rfl
    unfold exactFormatChars
    split
    · intro hmem
      rcases List.mem_append.mp hmem with h' | h'
      · rcases List.mem_append.mp h' with h'' | h''
        · exact dot_not_mem_exactHeadChars n h''
        · revert h''
          split <;> simp
      · rw [hrem] at h'
        unfold secondsTokenChars at h'
        rw [if_pos rfl] at h'
        rcases List.mem_append.mp h' with h'' | h''
        · exact dot_not_mem_intChars _ h''
        · simp at h''
    · exact dot_not_mem_exactHeadChars n

/-- Witness for C5 at `n = 1_500_000_000` (1.5 seconds): remainder
`5 * 10^8`, displayed as `.500`. -/
theorem c5_millisecond_precision_policy_witness :
    (((1500000000 : Int).natAbs % 1000000000 ≠ 0 →
        (∃ p, exactFormatChars 1500000000
            = p ++ '.' ::
                (padZeros 3 (natDigits ((1500000000 : Int).natAbs % 1000000000 / 1000000))
                  ++ ['s']))
        ∧ (padZeros 3
            (natDigits ((1500000000 : Int).natAbs % 1000000000 / 1000000))).length = 3
        ∧ (∀ c ∈ padZeros 3 (natDigits ((1500000000 : Int).natAbs % 1000000000 / 1000000)),
            c.isDigit = true)
        ∧ secondsBranchOf 1500000000 = SecondsBranch.milli)
    ∧ ((1500000000 : Int).natAbs % 1000000000 = 0 → '.' ∉ exactFormatChars 1500000000)
    ∧ secondsBranchOf 1500000000 ≠ SecondsBranch.micro
    ∧ secondsBranchOf 1500000000 ≠ SecondsBranch.nano) :=
  c5_millisecond_precision_policy 1500000000 (by decide) (by decide)

/-- The relative rendering always matches `^[+-]\d+\.\d{3}s$`. -/
theorem relativeChars_matches (n : Int) : matchesSignedSecs (relativeChars n) := by
  refine ⟨if n < 0 then '-' else '+',
    natDigits (roundHalfEvenDiv n.natAbs 1000000 / 1000),
    padZeros 3 (natDigits (roundHalfEvenDiv n.natAbs 1000000 % 1000)),
    ?_, natDigits_ne_nil _, natDigits_digits _, ?_, ?_, rfl⟩
  · split
    · exact Or.inr rfl
    · exact Or.inl rfl
  · apply padZeros_length
    apply natDigits_length_le _ 3 (by norm_num)
    have h3 : roundHalfEvenDiv n.natAbs 1000000 % 1000 < 1000 :=
      Nat.mod_lt _ (by norm_num)
    norm_num
    omega
  · exact padZeros_digits _ _ (natDigits_digits _)

/-- C6: `Time::format` computes `years_since_epoch` by the integer
division chain `nanos / 10^9 / 60 / 60 / 24 / 365`; inside `[50, 150]`
it renders the absolute UTC date-time (handing epoch seconds and the
sub-second remainder to the calendar renderer), and outside that range
it renders signed seconds with an explicit sign and exactly three
decimal places, matching `^[+-]\d+\.\d{3}s$`. -/
theorem c6_format_year_heuristic (n : Int) (h1 : i64min ≤ n) (h2 : n ≤ i64max) :
    (yearsSinceEpoch n
        = ((((Int.tdiv n 1000000000).tdiv 60).tdiv 60).tdiv 24).tdiv 365)
    ∧ (50 ≤ yearsSinceEpoch n ∧ yearsSinceEpoch n ≤ 150 →
        Time.format ⟨n⟩
          = TimeFormat.absolute (Int.tdiv n 1000000000) (Int.tmod n 1000000000))
    ∧ (¬(50 ≤ yearsSinceEpoch n ∧ yearsSinceEpoch n ≤ 150) →
        Time.format ⟨n⟩ = TimeFormat.relative (relativeChars n)
        ∧ matchesSignedSecs (relativeChars n)) := by
  refine ⟨rfl, fun h => ?_, fun h => ?_⟩
  · unfold Time.format
    dsimp only
    rw [if_pos h]
  · unfold Time.format
    dsimp only
    rw [if_neg h]
    exact ⟨rfl, relativeChars_matches n⟩

/-- Witness for C6 at two seconds after the epoch: the year quotient is
zero, the relative branch is taken, and the rendering is exactly
`+2.000s`. -/
theorem c6_format_year_heuristic_witness :
    (Time.format ⟨2000000000⟩ = TimeFormat.relative (relativeChars 2000000000)
      ∧ matchesSignedSecs (relativeChars 2000000000))
    ∧ relativeChars 2000000000 = ['+', '2', '.', '0', '0', '0', 's'] :=
  ⟨(c6_format_year_heuristic 2000000000 (by decide) (by decide)).2.2 (by decide),
   by decide⟩
